import Mathlib

set_option maxRecDepth 4000

/- Verification development for an agentic planning system: the step/lifeline
agent loop, the heuristics pipeline, the configuration loader, and the
history embedding index with its nearest-neighbour retriever.

Text is modelled as lists of characters (`Txt`), and the relevant Python
string operations are given as executable Lean functions.  Floating-point
vectors are modelled with exact rationals (for ordering claims) and reals
(for the norm claim).  External collaborators (perception, the planning
model, the sandbox executor) are oracle functions carried in an `Env`
record; the Python builtin `hash` is a function parameter. -/

abbrev Txt : Type := List Char

/-- ASCII whitespace, as recognised by Python `str.strip`/`str.split`/`\s`. -/
def isPySpace (c : Char) : Bool :=
  c == ' ' || c == '\t' || c == '\n' || c == '\r' || c == Char.ofNat 11 || c == Char.ofNat 12

/-- Python `str.strip()` with no arguments: drop whitespace at both ends. -/
def pyStrip (s : Txt) : Txt :=
  ((s.dropWhile isPySpace).reverse.dropWhile isPySpace).reverse

/-- Python `str.lower()` (ASCII fragment). -/
def pyLower (s : Txt) : Txt := s.map Char.toLower

/-- Python `str.startswith(pat)`. -/
def startsWithSeq : Txt → Txt → Bool
  | [], _ => true
  | _ :: _, [] => false
  | a :: pat, b :: s => a == b && startsWithSeq pat s

/-- Python `pat in s` (contiguous substring test). -/
def containsSeq (pat : Txt) : Txt → Bool
  | [] => pat.isEmpty
  | c :: rest => startsWithSeq pat (c :: rest) || containsSeq pat rest

/-- Python `s.split(sep)` for a non-empty separator, fuel-structured so that
it reduces by computation: each recursive call consumes at least one
character, so `s.length` fuel always suffices. -/
def splitOnGo (sep : Txt) : Nat → Txt → List Txt
  | _, [] => [[]]
  | 0, s => [s]
  | fuel + 1, c :: rest =>
    if startsWithSeq sep (c :: rest) && !sep.isEmpty then
      [] :: splitOnGo sep fuel (rest.drop (sep.length - 1))
    else
      match splitOnGo sep fuel rest with
      | [] => [[c]]
      | ph :: pt => (c :: ph) :: pt

/-- Python `s.split(sep)`: the list of segments between non-overlapping
left-to-right occurrences of `sep`. -/
def splitOnSeq (sep : Txt) (s : Txt) : List Txt := splitOnGo sep s.length s

/-- Python `str.split()` with no arguments: split on whitespace runs,
dropping empty tokens.  `acc` is the current token, reversed. -/
def pySplitWsAux (acc : Txt) : Txt → List Txt
  | [] => if acc.isEmpty then [] else [acc.reverse]
  | c :: rest =>
    if isPySpace c then
      if acc.isEmpty then pySplitWsAux [] rest else acc.reverse :: pySplitWsAux [] rest
    else pySplitWsAux (c :: acc) rest

def pySplitWs (s : Txt) : List Txt := pySplitWsAux [] s

def dropWs (s : Txt) : Txt := s.dropWhile isPySpace

/-- Attempt to match the regex `\s*(async\s+)?def\s+solve\s*\(` at the start
of `s` (translated from `re.search(r"^\s*(async\s+)?def\s+solve\s*\(", plan,
re.MULTILINE)` in core/loop.py; the pattern is case-SENSITIVE because the
source passes no `re.IGNORECASE` flag). -/
def matchSolveAt (s : Txt) : Bool :=
  let s1 := dropWs s
  let s2 :=
    if startsWithSeq (("async").toList) s1 then
      let r := s1.drop 5
      match r with
      | [] => s1
      | c :: _ => if isPySpace c then dropWs r else s1
    else s1
  if startsWithSeq (("def").toList) s2 then
    let r := s2.drop 3
    match r with
    | [] => false
    | c :: _ =>
      if isPySpace c then
        let s3 := dropWs r
        if startsWithSeq (("solve").toList) s3 then
          match dropWs (s3.drop 5) with
          | [] => false
          | c2 :: _ => c2 == '('
        else false
      else false
  else false

/-- With `re.MULTILINE`, `^` also matches just after every newline. -/
def matchesSolveAux : Txt → Bool
  | [] => false
  | c :: rest => (c == '\n' && matchSolveAt rest) || matchesSolveAux rest

/-- The plan classifier of core/loop.py line 85 (and modules/decision.py
line 72): the plan text matches `^\s*(async\s+)?def\s+solve\s*\(` at some
line start. -/
def matchesSolve (s : Txt) : Bool := matchSolveAt s || matchesSolveAux s

/-- The spec's reading of the classifier: case-insensitive matching.  Stated
from the spec's words ("case-insensitive, allows an async qualifier") for
comparison with `matchesSolve`, which is translated from the source. -/
def matchesSolveCI (s : Txt) : Bool := matchesSolve (pyLower s)

/- ## Heuristics: base data model (heuristics/base.py) -/

/-- Metadata dict `{"session_id": ..., "step": ...}` passed by the loop. -/
abbrev HMeta : Type := Txt × Nat

structure HeurContext where
  user_input : Txt
  interim_result : Option Txt
  metadata : HMeta

structure HeurResult where
  modified_input : Option Txt := none
  notes : Option Txt := none
  flags : List (Txt × Txt) := []
  severity : Txt := ("none").toList
deriving DecidableEq

/-- A heuristic unit: `run` may raise, modelled as `Except` with the
exception message. -/
structure HUnit where
  id : Txt
  enabled : Bool := true
  run : HeurContext → Except Txt HeurResult

/- ## Heuristics engine (heuristics/engine.py) -/

/-- The synthetic result the engine substitutes when a unit raises:
`HeuristicResult(notes=f"heuristic_error: {h.id}: {e}", severity="warn")`. -/
def synthRes (hid msg : Txt) : HeurResult :=
  { modified_input := none,
    notes := some ((("heuristic_error: ").toList) ++ hid ++ ((": ").toList) ++ msg),
    flags := [],
    severity := ("warn").toList }

/-- The loop body of `HeuristicEngine._run`, over the already-filtered list
of enabled units, threading the working text `cur`. -/
def engineRunGo (interim : Option Txt) (md : HMeta) : List HUnit → Txt → Txt × List HeurResult
  | [], cur => (cur, [])
  | h :: rest, cur =>
    let r :=
      match h.run { user_input := cur, interim_result := interim, metadata := md } with
      | Except.ok r => r
      | Except.error e => synthRes h.id e
    let cur2 :=
      match r.modified_input with
      | some m => m
      | none => cur
    let p := engineRunGo interim md rest cur2
    (p.1, r :: p.2)

/-- `current_input = ctx.interim_result if ctx.interim_result is not None
else ctx.user_input`. -/
def initText (ctx : HeurContext) : Txt :=
  match ctx.interim_result with
  | some t => t
  | none => ctx.user_input

/-- `HeuristicEngine._run`: iterate the enabled units in configured order. -/
def engineRun (units : List HUnit) (ctx : HeurContext) : Txt × List HeurResult :=
  engineRunGo ctx.interim_result ctx.metadata (units.filter (fun u => u.enabled)) (initText ctx)

/-- `HeuristicEngine.run_pre_query`. -/
def run_pre_query (units : List HUnit) (user_input : Txt) (md : HMeta) : Txt × List HeurResult :=
  engineRun units { user_input := user_input, interim_result := none, metadata := md }

/-- `HeuristicEngine.run_post_result`. -/
def run_post_result (units : List HUnit) (user_input interim : Txt) (md : HMeta) : Txt × List HeurResult :=
  engineRun units { user_input := user_input, interim_result := some interim, metadata := md }

/-- The last `modified_input` carried by a result list, if any: used to state
that the engine's final text is the working text after the last enabled
unit. -/
def lastMod (rs : List HeurResult) : Option Txt :=
  (rs.filterMap (fun r => r.modified_input)).getLast?

/- ## Configuration loader (modules/heuristics_loader.py) -/

structure ConfigEntry where
  id : Txt
  enabled : Bool
  params : List (Txt × Txt)

/-- Outcome of `open(path)` + `yaml.safe_load`: either the whole try block
raised, or it produced a document, recorded by its Python truthiness
(`falsy`), its root `enabled` flag (`data.get("enabled", True)`), and its
`pre_query`/`post_result` entry lists. -/
inductive LoadInput where
  | failed
  | parsed (falsy : Bool) (enabledRoot : Bool) (pre post : List ConfigEntry)

/-- The `for section in (pre + post)` construction loop: skip disabled
entries, skip ids missing from `ID_TO_CLASS`, otherwise instantiate. -/
def buildUnits (registry : Txt → Option (ConfigEntry → HUnit)) : List ConfigEntry → List HUnit
  | [] => []
  | e :: rest =>
    if !e.enabled then buildUnits registry rest
    else
      match registry e.id with
      | none => buildUnits registry rest
      | some mk => mk e :: buildUnits registry rest

/-- `load_engine_from_config`, with the yaml load outcome, the default unit
list (`default_heuristics()`) and the `ID_TO_CLASS` registry as inputs. -/
def load_engine_from_config (inp : LoadInput) (defaults : List HUnit)
    (registry : Txt → Option (ConfigEntry → HUnit)) : List HUnit :=
  match inp with
  | LoadInput.failed => defaults
  | LoadInput.parsed falsy enabledRoot pre post =>
    if falsy || !enabledRoot then []
    else
      let hs := buildUnits registry (pre ++ post)
      if hs.isEmpty then defaults else hs

/- ## History index (history_index/indexer.py and retriever.py) -/

/-- Token count accumulation of `simple_embed`: `for t in tokens:
vec[hash(t) % dim] += 1.0`, with the Python `hash` builtin supplied as a
parameter (it is fixed within one interpreter process). -/
def embedCounts (hash : Txt → Fin 256) (toks : List Txt) : Fin 256 → ℚ :=
  toks.foldl (fun vec t => Function.update vec (hash t) (vec (hash t) + 1)) (fun _ => 0)

/-- `tokens = text.lower().split()`. -/
def tokenize (s : Txt) : List Txt := pySplitWs (pyLower s)

/-- `simple_embed`: hashed bag-of-words counts, L2-normalised with the
divide-by-zero guard `norm = np.linalg.norm(vec) or 1.0`. -/
noncomputable def simple_embed (hash : Txt → Fin 256) (s : Txt) : Fin 256 → ℝ :=
  let vec := embedCounts hash (tokenize s)
  let norm : ℝ := Real.sqrt (∑ i, ((vec i : ℝ)) ^ 2)
  let denom : ℝ := if norm = 0 then 1 else norm
  fun i => ((vec i : ℝ)) / denom

/-- Dot product of two stored rows (floats modelled as rationals). -/
def dotQ (a b : List ℚ) : ℚ := (a.zipWith (fun x y => x * y) b).sum

/-- `sims = self.X @ q.T`. -/
def simsOf (X : List (List ℚ)) (q : List ℚ) : List ℚ := X.map (fun row => dotQ row q)

/-- What `np.argsort(-sims.ravel())` (retriever.py line 54) guarantees
about its output: a permutation of all row indices ordered by
non-increasing similarity.  The call passes no `kind=` argument, so numpy
uses its default quicksort, which is NOT stable: the relative order of
equal-similarity indices is unspecified by the program.  The ranking is
therefore a parameter constrained by this predicate rather than a fixed
function. -/
def ValidArgsort (sims : List ℚ) (idxs : List Nat) : Prop :=
  List.Perm idxs (List.range sims.length)
  ∧ List.Pairwise (fun i j => sims.getD j 0 ≤ sims.getD i 0) idxs

/-- The ordering the CLAIM asserts the retriever ranks by, stated from the
spec's words for comparison: strictly larger similarity first, equal
similarities broken by ascending insertion index.  `np.argsort` with the
default quicksort does not guarantee the tie clause. -/
def simRank (sims : List ℚ) (i j : Nat) : Prop :=
  sims.getD j 0 < sims.getD i 0 ∨ (sims.getD i 0 = sims.getD j 0 ∧ i < j)

/-- `HistoryRetriever.retrieve` (brute-force ranking path; the optional
faiss path likewise only guarantees similarity order on ties).  `idxs` is
the output of `np.argsort(-sims.ravel())`, constrained by `ValidArgsort` in
the theorems because its tie order is unspecified.  `meta` holds the
deserialised `{query, answer}` record of each row, `none` when `json.loads`
would raise (such rows are skipped). -/
def retrieve (X : List (List ℚ)) (meta : List (Option (Txt × Txt))) (idxs : List Nat)
    (top_k : Nat) : List (Txt × Txt) :=
  if X.length = 0 then []
  else (idxs.take top_k).filterMap (fun i => meta.getD i none)

/- ## Planning module (modules/decision.py) -/

def backtickChar : Char := Char.ofNat 96

/-- Python `raw.strip` applied to the backtick character at both ends. -/
def stripBtk (s : Txt) : Txt :=
  ((s.dropWhile (fun c => c == backtickChar)).reverse.dropWhile (fun c => c == backtickChar)).reverse

def unknownTxt : Txt := ("FINAL_ANSWER: [unknown]").toList

def couldNotTxt : Txt := ("FINAL_ANSWER: [Could not generate valid solve()]").toList

/-- The decision logic of `generate_plan` after prompt construction: the
model call outcome is `Except.error` when `model.generate_text` (or anything
else in the try block) raises, `Except.ok raw` otherwise. -/
def generate_plan (modelOut : Except Txt Txt) : Txt :=
  match modelOut with
  | Except.error _ => unknownTxt
  | Except.ok out =>
    let raw := pyStrip out
    let raw :=
      if startsWithSeq ([backtickChar, backtickChar, backtickChar]) raw then
        let r := pyStrip (stripBtk raw)
        if startsWithSeq (("python").toList) (pyLower r) then pyStrip (r.drop 6) else r
      else raw
    if matchesSolve raw then raw else couldNotTxt

/- ## Agent loop (core/loop.py) -/

structure Subtask where
  tool_name : Txt
  status : Txt
deriving DecidableEq

structure MemRecord where
  tool_name : Txt
  plan : Txt
  result : Txt
  success : Bool
deriving DecidableEq

/-- The parts of `AgentContext` the loop reads and writes. -/
structure AgentState where
  user_input : Txt
  user_input_override : Option Txt
  final_answer : Option Txt
  subtasks : List Subtask
  memory : List MemRecord
deriving DecidableEq

/-- Python `a or b` on an optional string: `none` and the empty string are
falsy. -/
def pyOr (o : Option Txt) (d : Txt) : Txt :=
  match o with
  | some s => if s.isEmpty then d else s
  | none => d

def solveSandboxName : Txt := ("solve_sandbox").toList

def pendingTxt : Txt := ("pending").toList

def successTxt : Txt := ("success").toList

def failureTxt : Txt := ("failure").toList

def finalTag : Txt := ("FINAL_ANSWER:").toList

def furtherTag : Txt := ("FURTHER_PROCESSING_REQUIRED:").toList

def sandboxErrTag : Txt := ("[sandbox error:").toList

def finalSp : Txt := ("FINAL_ANSWER: ").toList

def execFailedTxt : Txt := ("FINAL_ANSWER: [Execution failed]").toList

def maxStepsTxt : Txt := ("FINAL_ANSWER: [Max steps reached]").toList

/-- Modelled from the spec: `AgentContext.log_subtask` (core/context.py is
not part of the provided sources) appends an auditable subtask record with
status `pending` — "Every execution attempt is logged as an auditable
subtask record with status pending → success|failure ... (append-only)". -/
def logSubtask (st : AgentState) : AgentState :=
  { st with subtasks := st.subtasks ++ [{ tool_name := solveSandboxName, status := pendingTxt }] }

/-- Set the status of the first matching record of a reversed list. -/
def setFirstMatch (name status : Txt) : List Subtask → List Subtask
  | [] => []
  | r :: rest =>
    if r.tool_name = name then { r with status := status } :: rest
    else r :: setFirstMatch name status rest

/-- Modelled from the spec: `AgentContext.update_subtask_status`
(core/context.py is not part of the provided sources) moves the most recent
matching record from `pending` to the given terminal status. -/
def updateSubtask (st : AgentState) (name status : Txt) : AgentState :=
  { st with subtasks := (setFirstMatch name status st.subtasks.reverse).reverse }

/-- Modelled from the spec: `memory.add_tool_output` (modules/memory.py is
not part of the provided sources) records the attempt; append-only. -/
def addMemory (st : AgentState) (plan result : Txt) (success : Bool) : AgentState :=
  { st with memory := st.memory ++ [{ tool_name := solveSandboxName, plan := plan, result := result, success := success }] }

/-- The task-resumption framing text wrapped around a forwarded result
(core/loop.py lines 116-123). -/
def frameForward (user_input forwarded : Txt) : Txt :=
  (("Original user task: ").toList) ++ user_input
    ++ (("\n\nYour last tool produced this result:\n\n").toList) ++ forwarded
    ++ (("\n\nIf this fully answers the task, return:\nFINAL_ANSWER: your answer\n\nOtherwise, return the next FUNCTION_CALL.").toList)

/-- `result.split("FURTHER_PROCESSING_REQUIRED:")[1].strip()`. -/
def forwardPayload (r : Txt) : Txt := pyStrip ((splitOnSeq furtherTag r).getD 1 [])

/-- The loop's external collaborators and per-run configuration.  The
perception, planning and sandbox collaborators are oracles, additionally
indexed by the step and the attempt number within the step so that they can
answer differently across invocations. -/
structure Env where
  userInput : Txt
  sessionId : Txt
  maxSteps : Nat
  maxLifelines : Nat
  engine : List HUnit
  toolsNonempty : Txt → Nat → Nat → Bool
  planner : Txt → Nat → Nat → Txt
  sandbox : Txt → Nat → Nat → Txt

/-- Outcome of one iteration of the lifeline loop. -/
inductive AttemptOut where
  | done (result : Txt) (st : AgentState)
  | breakStep (st : AgentState)
  | retry (st : AgentState)
deriving DecidableEq

def stateOf : AttemptOut → AgentState
  | AttemptOut.done _ st => st
  | AttemptOut.breakStep st => st
  | AttemptOut.retry st => st

def isRetry : AttemptOut → Bool
  | AttemptOut.retry _ => true
  | _ => false

def isDone : AttemptOut → Bool
  | AttemptOut.done _ _ => true
  | _ => false

/-- The execution section of the loop body (core/loop.py lines 88-154),
reached once the plan matched the solve pattern. -/
def execAttempt (env : Env) (step attempt : Nat) (st : AgentState) (plan : Txt) : AttemptOut :=
  let st1 := logSubtask st
  let r := pyStrip (env.sandbox plan step attempt)
  if startsWithSeq finalTag r then
    let st2 := { st1 with final_answer := some r }
    let st3 := updateSubtask st2 solveSandboxName successTxt
    let st4 := addMemory st3 plan r true
    AttemptOut.done r st4
  else if startsWithSeq furtherTag r then
    let content := forwardPayload r
    let fwd := (run_post_result env.engine st1.user_input content (env.sessionId, step)).1
    AttemptOut.breakStep { st1 with user_input_override := some (frameForward st1.user_input fwd) }
  else if startsWithSeq sandboxErrTag r then
    let st2 := { st1 with final_answer := some execFailedTxt }
    let st3 := updateSubtask st2 solveSandboxName failureTxt
    let st4 := addMemory st3 plan r false
    AttemptOut.retry st4
  else
    let st2 := { st1 with final_answer := some (finalSp ++ r) }
    let st3 := updateSubtask st2 solveSandboxName successTxt
    let st4 := addMemory st3 plan r true
    if containsSeq furtherTag r then AttemptOut.retry st4 else AttemptOut.done (finalSp ++ r) st4

/-- One iteration of the `while lifelines_left >= 0` body (core/loop.py
lines 40-158). -/
def runAttempt (env : Env) (step attempt : Nat) (st : AgentState) : AttemptOut :=
  let preText := (run_pre_query env.engine (pyOr st.user_input_override st.user_input) (env.sessionId, step)).1
  if env.toolsNonempty preText step attempt then
    let plan := env.planner (pyOr st.user_input_override st.user_input) step attempt
    if matchesSolve plan then execAttempt env step attempt st plan
    else AttemptOut.retry st
  else AttemptOut.breakStep st

/-- Where a step ended: a `return` from the whole run, or falling through to
the next step, carrying the `lifelines_left` value at exit. -/
inductive StepRes where
  | finished (result : Txt) (st : AgentState)
  | next (st : AgentState) (lifelinesLeft : Int)
deriving DecidableEq

/-- The lifeline loop: `fuel` is `lifelines_left + 1`, so `fuel = 0` is the
loop-exit state `lifelines_left = -1`.  A `break` leaves `lifelines_left`
untouched; a retry decrements it. -/
def stepLoop (env : Env) (step : Nat) : AgentState → Nat → Nat → StepRes
  | st, 0, _ => StepRes.next st (-1)
  | st, fuel + 1, attempt =>
    match runAttempt env step attempt st with
    | AttemptOut.done r st2 => StepRes.finished r st2
    | AttemptOut.breakStep st2 => StepRes.next st2 (fuel : Int)
    | AttemptOut.retry st2 => stepLoop env step st2 fuel (attempt + 1)

/-- One full step, entered with a fresh lifeline budget. -/
def runStep (env : Env) (step : Nat) (st : AgentState) : StepRes :=
  stepLoop env step st (env.maxLifelines + 1) 0

/-- The `for step in range(max_steps)` loop; when all steps are exhausted
the run returns the max-steps literal (core/loop.py lines 160-162). -/
def loopGo (env : Env) : Nat → AgentState → Txt × AgentState
  | 0, st => (maxStepsTxt, { st with final_answer := some maxStepsTxt })
  | n + 1, st =>
    match runStep env (env.maxSteps - (n + 1)) st with
    | StepRes.finished r st2 => (r, st2)
    | StepRes.next st2 _ => loopGo env n st2

def initState (env : Env) : AgentState :=
  { user_input := env.userInput, user_input_override := none, final_answer := none,
    subtasks := [], memory := [] }

/-- `AgentLoop.run`: the returned pair is the `result` field of the returned
dict (the `status` field is the constant `"done"` on every return path)
and the final context state. -/
def runLoop (env : Env) : Txt × AgentState := loopGo env env.maxSteps (initState env)

/-- `current_user_input = user_input_override or self.context.user_input`,
the text handed to the planning collaborator. -/
def planOf (env : Env) (step attempt : Nat) (st : AgentState) : Txt :=
  env.planner (pyOr st.user_input_override st.user_input) step attempt

/-- The stripped sandbox result of this attempt. -/
def sandboxRes (env : Env) (step attempt : Nat) (st : AgentState) : Txt :=
  pyStrip (env.sandbox (planOf env step attempt st) step attempt)

/-- The override text built in the ForwardRequired branch: the post-result
heuristics output over the extracted payload, wrapped in the framing. -/
def forwardFramed (env : Env) (step attempt : Nat) (st : AgentState) : Txt :=
  frameForward st.user_input
    ((run_post_result env.engine st.user_input
        (forwardPayload (sandboxRes env step attempt st)) (env.sessionId, step)).1)

/-- The state left by the ForwardRequired branch. -/
def forwardStateOf (env : Env) (step attempt : Nat) (st : AgentState) : AgentState :=
  { logSubtask st with user_input_override := some (forwardFramed env step attempt st) }

/-- The state left by the Plain branch. -/
def plainStateOf (env : Env) (step attempt : Nat) (st : AgentState) : AgentState :=
  addMemory
    (updateSubtask
      { logSubtask st with final_answer := some (finalSp ++ sandboxRes env step attempt st) }
      solveSandboxName successTxt)
    (planOf env step attempt st) (sandboxRes env step attempt st) true

/-- The state left by the Final branch. -/
def finalStateOf (env : Env) (step attempt : Nat) (st : AgentState) : AgentState :=
  addMemory
    (updateSubtask
      { logSubtask st with final_answer := some (sandboxRes env step attempt st) }
      solveSandboxName successTxt)
    (planOf env step attempt st) (sandboxRes env step attempt st) true

/-- The state left by the SandboxError branch. -/
def errStateOf (env : Env) (step attempt : Nat) (st : AgentState) : AgentState :=
  addMemory
    (updateSubtask
      { logSubtask st with final_answer := some execFailedTxt }
      solveSandboxName failureTxt)
    (planOf env step attempt st) (sandboxRes env step attempt st) false

/- ## Concrete instances used to evaluate the definitions -/

/-- A heuristic unit whose `run` always raises. -/
def uRaise : HUnit :=
  { id := ("u1").toList, enabled := true, run := fun _ => Except.error (("boom").toList) }

/-- A heuristic unit that rewrites the working text to `"z"`. -/
def uRewrite : HUnit :=
  { id := ("u2").toList, enabled := true,
    run := fun _ => Except.ok { modified_input := some (("z").toList) } }

def mdC : HMeta := ((("s").toList), 0)

/-- A distinguishable stand-in for the `default_heuristics()` list. -/
def dummyUnit : HUnit :=
  { id := ("dflt").toList, enabled := true, run := fun _ => Except.ok {} }

def regC : Txt → Option (ConfigEntry → HUnit) := fun _ => none

def envBase : Env :=
  { userInput := ("task").toList, sessionId := ("s").toList, maxSteps := 2, maxLifelines := 2,
    engine := [],
    toolsNonempty := fun _ _ _ => true,
    planner := fun _ _ _ => ("def solve(").toList,
    sandbox := fun _ _ _ => ("ok").toList }

/-- Sandbox forwards an intermediate result. -/
def envFwd : Env := { envBase with sandbox := fun _ _ _ => ("FURTHER_PROCESSING_REQUIRED: 7").toList }

/-- Sandbox returns a plain result that merely mentions the forwarding
marker mid-string. -/
def envPlainMarker : Env :=
  { envBase with sandbox := fun _ _ _ => ("see FURTHER_PROCESSING_REQUIRED: x").toList }

/-- Sandbox returns a plain result with no recognised prefix anywhere. -/
def envPlainClean : Env := { envBase with sandbox := fun _ _ _ => ("just an answer").toList }

/-- Sandbox returns the error sentinel. -/
def envErr : Env := { envBase with sandbox := fun _ _ _ => ("[sandbox error: nope]").toList }

/-- Planner emits an upper-case solve signature. -/
def envCaps : Env := { envBase with planner := fun _ _ _ => ("DEF SOLVE(").toList }

/-- Planner behaves as `generate_plan` does when the model call raises. -/
def envUnknown : Env :=
  { envBase with planner := fun _ _ _ => generate_plan (Except.error (("model error").toList)) }

/- # Helper lemmas -/

theorem startsWithSeq_take : ∀ (pat s : Txt), startsWithSeq pat s = true → s.take pat.length = pat
  | [], s, _ => by simp
  | a :: pat, [], h => by simp [startsWithSeq] at h
  | a :: pat, b :: s, h => by
    simp only [startsWithSeq, Bool.and_eq_true, beq_iff_eq] at h
    simp only [List.length_cons, List.take_succ_cons]
    exact h.1 ▸ congrArg (fun t => b :: t) (startsWithSeq_take pat s h.2)

theorem further_not_final (r : Txt) (h : startsWithSeq furtherTag r = true) :
    startsWithSeq finalTag r = false := by
  cases hb : startsWithSeq finalTag r with
  | false => rfl
  | true =>
    exfalso
    have e1 := startsWithSeq_take furtherTag r h
    have e2 := startsWithSeq_take finalTag r hb
    have e3 : furtherTag.take finalTag.length = finalTag := by
      rw [← e1, List.take_take, min_eq_left (by decide)]
      exact e2
    exact absurd e3 (by decide)

theorem engineRunGo_length (interim : Option Txt) (md : HMeta) :
    ∀ (l : List HUnit) (cur : Txt), (engineRunGo interim md l cur).2.length = l.length
  | [], _ => rfl
  | h :: rest, cur => by
    simp only [engineRunGo, List.length_cons]
    rw [engineRunGo_length interim md rest]

theorem getLast?_getD_cons (a x : Txt) : ∀ (l : List Txt), ((a :: l).getLast?).getD x = (l.getLast?).getD a
  | [] => rfl
  | b :: t => by
    rw [List.getLast?_cons_cons]
    cases e : (b :: t).getLast? with
    | none => simp at e
    | some y => simp [e]

theorem engineRunGo_finalText (interim : Option Txt) (md : HMeta) :
    ∀ (l : List HUnit) (cur : Txt),
      (engineRunGo interim md l cur).1 = (lastMod (engineRunGo interim md l cur).2).getD cur
  | [], cur => rfl
  | h :: rest, cur => by
    simp only [engineRunGo]
    cases hm : (match h.run { user_input := cur, interim_result := interim, metadata := md } with
        | Except.ok r => r
        | Except.error e => synthRes h.id e).modified_input with
    | some m =>
      simp only [hm, lastMod, List.filterMap_cons]
      rw [getLast?_getD_cons]
      exact engineRunGo_finalText interim md rest m
    | none =>
      simp only [hm, lastMod, List.filterMap_cons]
      exact engineRunGo_finalText interim md rest cur

/- # Claim theorems: heuristics engine -/

/-- C5: for every pipeline run, a unit whose `run` raises is replaced by the
synthetic `heuristic_error` warn result and the pipeline continues: the
result list always has exactly one entry per enabled unit, in configured
order. -/
theorem claim_C5_engine_isolates_failures :
    (∀ (units : List HUnit) (ctx : HeurContext),
      (engineRun units ctx).2.length = (units.filter (fun u => u.enabled)).length)
    ∧ (∀ (interim : Option Txt) (md : HMeta) (h : HUnit) (rest : List HUnit) (cur e : Txt),
        h.run { user_input := cur, interim_result := interim, metadata := md } = Except.error e →
        engineRunGo interim md (h :: rest) cur
          = ((engineRunGo interim md rest cur).1,
             synthRes h.id e :: (engineRunGo interim md rest cur).2)) := by
  constructor
  · intro units ctx
    exact engineRunGo_length _ _ _ _
  · intro interim md h rest cur e hrun
    simp only [engineRunGo, hrun, synthRes]

/-- C5 witness: a single always-raising unit still yields a one-entry result
list holding the synthetic warn record, and the text is unchanged. -/
theorem claim_C5_witness :
    engineRunGo none mdC (uRaise :: []) (("x").toList)
      = ((("x").toList), [synthRes (("u1").toList) (("boom").toList)]) := by
  have h := claim_C5_engine_isolates_failures.2 none mdC uRaise []
    (("x").toList) (("boom").toList) rfl
  simpa using h

/-- C6: the working text starts from `interim_result` when present (else
`user_input`); a unit's `modified_input` replaces the working text observed
(as `user_input`) by every later unit; and the returned final text is the
working text after the last enabled unit (equivalently, the last
`modified_input` produced, or the initial text when none was). -/
theorem claim_C6_working_text_threading :
    (∀ (units : List HUnit) (ctx : HeurContext),
      (engineRun units ctx).1 = (lastMod (engineRun units ctx).2).getD (initText ctx))
    ∧ (∀ (ui : Txt) (md : HMeta) (t : Txt),
        initText { user_input := ui, interim_result := some t, metadata := md } = t)
    ∧ (∀ (ui : Txt) (md : HMeta),
        initText { user_input := ui, interim_result := none, metadata := md } = ui)
    ∧ (∀ (interim : Option Txt) (md : HMeta) (h : HUnit) (rest : List HUnit)
        (cur : Txt) (r : HeurResult) (m : Txt),
        h.run { user_input := cur, interim_result := interim, metadata := md } = Except.ok r →
        r.modified_input = some m →
        engineRunGo interim md (h :: rest) cur
          = ((engineRunGo interim md rest m).1, r :: (engineRunGo interim md rest m).2)) := by
  refine ⟨?_, fun _ _ _ => rfl, fun _ _ => rfl, ?_⟩
  · intro units ctx
    exact engineRunGo_finalText _ _ _ _
  · intro interim md h rest cur r m hrun hm
    simp only [engineRunGo, hrun, hm]

/-- C6 witness: with a rewriting unit followed by a raising unit, the final
text is the rewrite and later units saw it. -/
theorem claim_C6_witness :
    engineRunGo none mdC (uRewrite :: uRaise :: []) (("x").toList)
      = ((("z").toList),
         [{ modified_input := some (("z").toList) },
          synthRes (("u1").toList) (("boom").toList)]) := by
  have h := claim_C6_working_text_threading.2.2.2 none mdC uRewrite (uRaise :: [])
    (("x").toList) { modified_input := some (("z").toList) } (("z").toList) rfl rfl
  rw [h]
  have h2 := claim_C5_engine_isolates_failures.2 none mdC uRaise []
    (("z").toList) (("boom").toList) rfl
  rw [h2]
  rfl

/- # Claim theorems: configuration loader -/

/-- C10 counterexample: a document that opens and parses, is truthy and
enabled, and lists no entries at all still yields the default units — a
case the claim's "only when" clause excludes. -/
theorem claim_C10_counterexample :
    load_engine_from_config (LoadInput.parsed false true [] []) [dummyUnit] regC = [dummyUnit]
    ∧ ([dummyUnit] : List HUnit) ≠ [] := by
  exact ⟨rfl, by simp⟩

/-- C10 (amended): a falsy parsed document (or root `enabled: false`) yields
the empty pipeline; the defaults are used exactly when the file fails to
open or parse, or when the resolved entry list is empty — which happens
when the document lists no entries at all as well as when every listed
entry is disabled or has an unknown id. -/
theorem claim_C10_loader_fallbacks :
    (∀ (defaults : List HUnit) (registry : Txt → Option (ConfigEntry → HUnit)),
      load_engine_from_config LoadInput.failed defaults registry = defaults)
    ∧ (∀ (falsy enabledRoot : Bool) (pre post : List ConfigEntry) (defaults : List HUnit)
        (registry : Txt → Option (ConfigEntry → HUnit)),
        falsy = true ∨ enabledRoot = false →
        load_engine_from_config (LoadInput.parsed falsy enabledRoot pre post) defaults registry = [])
    ∧ (∀ (pre post : List ConfigEntry) (defaults : List HUnit)
        (registry : Txt → Option (ConfigEntry → HUnit)),
        buildUnits registry (pre ++ post) = [] →
        load_engine_from_config (LoadInput.parsed false true pre post) defaults registry = defaults)
    ∧ (∀ (pre post : List ConfigEntry) (defaults : List HUnit)
        (registry : Txt → Option (ConfigEntry → HUnit)),
        buildUnits registry (pre ++ post) ≠ [] →
        load_engine_from_config (LoadInput.parsed false true pre post) defaults registry
          = buildUnits registry (pre ++ post)) := by
  refine ⟨fun _ _ => rfl, ?_, ?_, ?_⟩
  · intro falsy enabledRoot pre post defaults registry hor
    rcases hor with h | h <;> subst h <;> simp [load_engine_from_config]
  · intro pre post defaults registry hempt
    simp [load_engine_from_config, hempt]
  · intro pre post defaults registry hne
    simp [load_engine_from_config, List.isEmpty_iff, hne]

/-- C10 witness: with all entries disabled the loader falls back to the
defaults; with one enabled known entry it uses the configured list. -/
theorem claim_C10_witness :
    load_engine_from_config
      (LoadInput.parsed false true [{ id := ("x").toList, enabled := false, params := [] }] [])
      [dummyUnit] regC = [dummyUnit] := by
  exact claim_C10_loader_fallbacks.2.2.1 _ _ _ _ rfl

/- # Claim theorems: embedding (history_index/indexer.py) -/

theorem embedCounts_foldl (hash : Txt → Fin 256) :
    ∀ (toks : List Txt) (init : Fin 256 → ℚ) (i : Fin 256),
      toks.foldl (fun vec t => Function.update vec (hash t) (vec (hash t) + 1)) init i
        = init i + (((toks.filter (fun t => hash t == i)).length : ℚ))
  | [], init, i => by simp
  | t :: ts, init, i => by
    simp only [List.foldl_cons, List.filter_cons]
    rw [embedCounts_foldl hash ts]
    by_cases h : hash t = i
    · simp only [h, Function.update_apply, if_pos rfl, beq_self_eq_true, if_true,
        List.length_cons]
      push_cast
      ring
    · have hb : (hash t == i) = false := by simpa using h
      have hne : i ≠ hash t := fun hi => h hi.symm
      simp [Function.update_apply, hb, hne]

theorem embedCounts_eq (hash : Txt → Fin 256) (toks : List Txt) (i : Fin 256) :
    embedCounts hash toks i = (((toks.filter (fun t => hash t == i)).length : ℚ)) := by
  rw [embedCounts, embedCounts_foldl hash]
  simp

/-- C8: `simple_embed` is deterministic (a pure function of the text once
the process hash function is fixed); a text with no tokens embeds to the
all-zero vector (the guard avoids dividing by zero); a text with at least
one token embeds to a vector whose L2 norm is 1 within 1e-6. -/
theorem claim_C8_simple_embed (hash : Txt → Fin 256) (s : Txt) :
    simple_embed hash s = simple_embed hash s
    ∧ (tokenize s = [] → ∀ i, simple_embed hash s i = 0)
    ∧ (tokenize s ≠ [] →
        |Real.sqrt (∑ i, (simple_embed hash s i) ^ 2) - 1| ≤ 1 / 1000000) := by
  refine ⟨rfl, ?_, ?_⟩
  · intro h0 i
    simp [simple_embed, embedCounts, h0]
  · intro hne
    obtain ⟨t0, ts, ht⟩ : ∃ a l, tokenize s = a :: l := by
      cases h : tokenize s with
      | nil => exact absurd h hne
      | cons a l => exact ⟨a, l, rfl⟩
    have hcount : (1 : ℚ) ≤ embedCounts hash (tokenize s) (hash t0) := by
      rw [embedCounts_eq]
      have hmem : t0 ∈ (tokenize s).filter (fun t => hash t == hash t0) := by
        rw [ht]
        simp [List.filter_cons]
      have hpos : 0 < ((tokenize s).filter (fun t => hash t == hash t0)).length :=
        List.length_pos.mpr (List.ne_nil_of_mem hmem)
      exact_mod_cast hpos
    have hS1 : (1 : ℝ) ≤ ∑ i, ((embedCounts hash (tokenize s) i : ℝ)) ^ 2 := by
      have hsingle : ((embedCounts hash (tokenize s) (hash t0) : ℝ)) ^ 2
          ≤ ∑ i, ((embedCounts hash (tokenize s) i : ℝ)) ^ 2 := by
        have h0 : ∀ i ∈ (Finset.univ : Finset (Fin 256)),
            (0 : ℝ) ≤ ((embedCounts hash (tokenize s) i : ℝ)) ^ 2 :=
          fun i _ => sq_nonneg _
        exact Finset.single_le_sum h0 (Finset.mem_univ (hash t0))
      have h1 : (1 : ℝ) ≤ ((embedCounts hash (tokenize s) (hash t0) : ℝ)) := by
        exact_mod_cast hcount
      nlinarith
    have hSpos : (0 : ℝ) < ∑ i, ((embedCounts hash (tokenize s) i : ℝ)) ^ 2 := by linarith
    have hsq : Real.sqrt (∑ i, ((embedCounts hash (tokenize s) i : ℝ)) ^ 2) ≠ 0 := by
      have := Real.sqrt_pos.mpr hSpos
      linarith
    have hembed : ∀ i, simple_embed hash s i
        = ((embedCounts hash (tokenize s) i : ℝ))
          / Real.sqrt (∑ j, ((embedCounts hash (tokenize s) j : ℝ)) ^ 2) := by
      intro i
      simp only [simple_embed]
      rw [if_neg hsq]
    have hsum : (∑ i, (simple_embed hash s i) ^ 2) = 1 := by
      have : (∑ i, (simple_embed hash s i) ^ 2)
          = (∑ i, ((embedCounts hash (tokenize s) i : ℝ)) ^ 2)
            / (Real.sqrt (∑ j, ((embedCounts hash (tokenize s) j : ℝ)) ^ 2)) ^ 2 := by
        rw [Finset.sum_congr rfl (fun i _ => by rw [hembed i, div_pow])]
        rw [← Finset.sum_div]
      rw [this, Real.sq_sqrt hSpos.le]
      exact div_self (ne_of_gt hSpos)
    rw [hsum, Real.sqrt_one]
    norm_num

/-- C8 witness: a two-token text has tokens, and its embedding's norm is 1
within 1e-6. -/
theorem claim_C8_witness :
    tokenize (("a b").toList) ≠ []
    ∧ |Real.sqrt (∑ i, (simple_embed (fun _ => (0 : Fin 256)) (("a b").toList) i) ^ 2) - 1|
        ≤ 1 / 1000000 :=
  ⟨by decide, (claim_C8_simple_embed (fun _ => (0 : Fin 256)) (("a b").toList)).2.2 (by decide)⟩

/- # Claim theorems: retriever (history_index/retriever.py) -/

/-- C7 counterexample: with two rows of equal similarity, the ranking
`[1, 0]` satisfies everything `np.argsort` guarantees (a permutation in
non-increasing similarity order), yet violates the claim's
ascending-index tie-break: row 1's record is returned before row 0's. -/
theorem claim_C7_counterexample :
    ValidArgsort (simsOf [[1], [1]] [1]) [1, 0]
    ∧ retrieve [[1], [1]]
        [some ((("a").toList), (("a").toList)), some ((("b").toList), (("b").toList))]
        [1, 0] 2
      = [((("b").toList), (("b").toList)), ((("a").toList), (("a").toList))]
    ∧ ((("b").toList), (("b").toList)) ≠ ((("a").toList), (("a").toList))
    ∧ ¬ List.Pairwise (simRank (simsOf [[1], [1]] [1])) [1, 0] := by
  refine ⟨⟨?_, ?_⟩, by decide, by decide, ?_⟩
  · show List.Perm [1, 0] (List.range (simsOf [[1], [1]] [1]).length)
    have hl : (simsOf [[1], [1]] [1]).length = 2 := rfl
    rw [hl]
    exact List.Perm.swap 0 1 []
  · refine List.pairwise_cons.mpr ⟨?_, List.pairwise_singleton _ _⟩
    intro j hj
    have hj0 : j = 0 := by simpa using hj
    subst hj0
    exact le_refl _
  · intro h
    have h10 := (List.pairwise_cons.mp h).1 0 (by simp)
    rcases h10 with hlt | ⟨_, hidx⟩
    · exact absurd hlt (lt_irrefl _)
    · exact absurd hidx (by norm_num)

/-- C7 (amended): for every ranking satisfying what `np.argsort` guarantees
(the tie order among equal similarities being unspecified), `retrieve`
returns at most `top_k` records; an empty index yields the empty list; and
the records are drawn, in ranking order, from a `min top_k n`-prefix of a
permutation of all rows sorted by non-increasing dot-product similarity
(rows whose metadata fails to deserialise are skipped). -/
theorem claim_C7_ranking (X : List (List ℚ)) (meta : List (Option (Txt × Txt)))
    (q : List ℚ) (idxs : List Nat) (top_k : Nat)
    (hvalid : ValidArgsort (simsOf X q) idxs) :
    (retrieve X meta idxs top_k).length ≤ top_k
    ∧ (X = [] → retrieve X meta idxs top_k = [])
    ∧ List.Perm (idxs.take top_k ++ idxs.drop top_k) (List.range X.length)
    ∧ List.Pairwise (fun i j => (simsOf X q).getD j 0 ≤ (simsOf X q).getD i 0)
        (idxs.take top_k ++ idxs.drop top_k)
    ∧ (idxs.take top_k).length = min top_k X.length
    ∧ (X.length ≠ 0 →
        retrieve X meta idxs top_k
          = (idxs.take top_k).filterMap (fun i => meta.getD i none)) := by
  obtain ⟨hperm, hsorted⟩ := hvalid
  have hlen : idxs.length = X.length := by
    have h := hperm.length_eq
    simpa [simsOf] using h
  have hperm2 : List.Perm idxs (List.range X.length) := by
    have h : (simsOf X q).length = X.length := by simp [simsOf]
    rw [← h]
    exact hperm
  refine ⟨?_, ?_, ?_, ?_, ?_, ?_⟩
  · by_cases hX : X.length = 0
    · simp [retrieve, hX]
    · calc (retrieve X meta idxs top_k).length
          = ((idxs.take top_k).filterMap (fun i => meta.getD i none)).length := by
            simp [retrieve, hX]
        _ ≤ (idxs.take top_k).length := List.length_filterMap_le _ _
        _ ≤ top_k := by simp [List.length_take]
  · intro hxe
    simp [retrieve, hxe]
  · rw [List.take_append_drop]
    exact hperm2
  · rw [List.take_append_drop]
    exact hsorted
  · rw [List.length_take, hlen]
  · intro hX
    simp [retrieve, hX]

/-- C7 witness: the amended theorem applied to a concrete one-row index
with the (only) admissible ranking. -/
theorem claim_C7_witness :
    (retrieve [[1]] [some ((("a").toList), (("b").toList))] [0] 1).length ≤ 1
    ∧ List.Perm ([0].take 1 ++ [0].drop 1) (List.range ([[1]] : List (List ℚ)).length) := by
  have hvalid : ValidArgsort (simsOf [[1]] [1]) [0] := by
    constructor
    · show List.Perm [0] (List.range (simsOf [[1]] [1]).length)
      have hl : (simsOf [[1]] [1]).length = 1 := rfl
      rw [hl]
      exact List.Perm.refl _
    · exact List.pairwise_singleton _ _
  have h := claim_C7_ranking [[1]] [some ((("a").toList), (("b").toList))] [1] [0] 1 hvalid
  exact ⟨h.1, h.2.2.1⟩

/- # Agent loop lemmas -/

theorem frameForward_isEmpty (a b : Txt) : (frameForward a b).isEmpty = false := rfl

theorem setFirstMatch_length (n s : Txt) :
    ∀ (l : List Subtask), (setFirstMatch n s l).length = l.length
  | [] => rfl
  | r :: rest => by
    simp only [setFirstMatch]
    by_cases h : r.tool_name = n
    · rw [if_pos h]
      simp
    · rw [if_neg h]
      simp [setFirstMatch_length n s rest]

theorem runAttempt_exec (env : Env) (step attempt : Nat) (st : AgentState)
    (htools : env.toolsNonempty
        (run_pre_query env.engine (pyOr st.user_input_override st.user_input) (env.sessionId, step)).1
        step attempt = true)
    (hplan : matchesSolve (planOf env step attempt st) = true) :
    runAttempt env step attempt st = execAttempt env step attempt st (planOf env step attempt st) := by
  have hplan2 : matchesSolve (env.planner (pyOr st.user_input_override st.user_input) step attempt)
      = true := hplan
  simp [runAttempt, planOf, htools, hplan2]

theorem runAttempt_invalid (env : Env) (step attempt : Nat) (st : AgentState)
    (htools : env.toolsNonempty
        (run_pre_query env.engine (pyOr st.user_input_override st.user_input) (env.sessionId, step)).1
        step attempt = true)
    (hplan : matchesSolve (planOf env step attempt st) = false) :
    runAttempt env step attempt st = AttemptOut.retry st := by
  have hplan2 : matchesSolve (env.planner (pyOr st.user_input_override st.user_input) step attempt)
      = false := hplan
  simp [runAttempt, htools, hplan2]

theorem runAttempt_notools (env : Env) (step attempt : Nat) (st : AgentState)
    (htools : env.toolsNonempty
        (run_pre_query env.engine (pyOr st.user_input_override st.user_input) (env.sessionId, step)).1
        step attempt = false) :
    runAttempt env step attempt st = AttemptOut.breakStep st := by
  simp [runAttempt, htools]

theorem execAttempt_final (env : Env) (step attempt : Nat) (st : AgentState)
    (hfin : startsWithSeq finalTag (sandboxRes env step attempt st) = true) :
    execAttempt env step attempt st (planOf env step attempt st)
      = AttemptOut.done (sandboxRes env step attempt st) (finalStateOf env step attempt st) := by
  unfold sandboxRes at hfin
  simp [execAttempt, hfin, finalStateOf, sandboxRes]

theorem execAttempt_further (env : Env) (step attempt : Nat) (st : AgentState)
    (hfwd : startsWithSeq furtherTag (sandboxRes env step attempt st) = true) :
    execAttempt env step attempt st (planOf env step attempt st)
      = AttemptOut.breakStep (forwardStateOf env step attempt st) := by
  have hfin : startsWithSeq finalTag (sandboxRes env step attempt st) = false :=
    further_not_final _ hfwd
  unfold sandboxRes at hfin hfwd
  simp [execAttempt, hfin, hfwd, forwardStateOf, forwardFramed, forwardPayload,
    sandboxRes, logSubtask]

theorem execAttempt_sandbox_error (env : Env) (step attempt : Nat) (st : AgentState)
    (hfin : startsWithSeq finalTag (sandboxRes env step attempt st) = false)
    (hfwd : startsWithSeq furtherTag (sandboxRes env step attempt st) = false)
    (herr : startsWithSeq sandboxErrTag (sandboxRes env step attempt st) = true) :
    execAttempt env step attempt st (planOf env step attempt st)
      = AttemptOut.retry (errStateOf env step attempt st) := by
  unfold sandboxRes at hfin hfwd herr
  simp [execAttempt, hfin, hfwd, herr, errStateOf, sandboxRes]

theorem execAttempt_plain_done (env : Env) (step attempt : Nat) (st : AgentState)
    (hfin : startsWithSeq finalTag (sandboxRes env step attempt st) = false)
    (hfwd : startsWithSeq furtherTag (sandboxRes env step attempt st) = false)
    (herr : startsWithSeq sandboxErrTag (sandboxRes env step attempt st) = false)
    (hcont : containsSeq furtherTag (sandboxRes env step attempt st) = false) :
    execAttempt env step attempt st (planOf env step attempt st)
      = AttemptOut.done (finalSp ++ sandboxRes env step attempt st)
          (plainStateOf env step attempt st) := by
  unfold sandboxRes at hfin hfwd herr hcont
  simp [execAttempt, hfin, hfwd, herr, hcont, plainStateOf, sandboxRes]

theorem execAttempt_plain_retry (env : Env) (step attempt : Nat) (st : AgentState)
    (hfin : startsWithSeq finalTag (sandboxRes env step attempt st) = false)
    (hfwd : startsWithSeq furtherTag (sandboxRes env step attempt st) = false)
    (herr : startsWithSeq sandboxErrTag (sandboxRes env step attempt st) = false)
    (hcont : containsSeq furtherTag (sandboxRes env step attempt st) = true) :
    execAttempt env step attempt st (planOf env step attempt st)
      = AttemptOut.retry (plainStateOf env step attempt st) := by
  unfold sandboxRes at hfin hfwd herr hcont
  simp [execAttempt, hfin, hfwd, herr, hcont, plainStateOf, sandboxRes]

theorem forwardStateOf_subtasks (env : Env) (step attempt : Nat) (st : AgentState) :
    (forwardStateOf env step attempt st).subtasks
      = st.subtasks ++ [{ tool_name := solveSandboxName, status := pendingTxt }] := by
  simp [forwardStateOf, logSubtask]

theorem finalStateOf_subtasks (env : Env) (step attempt : Nat) (st : AgentState) :
    (finalStateOf env step attempt st).subtasks
      = st.subtasks ++ [{ tool_name := solveSandboxName, status := successTxt }] := by
  simp [finalStateOf, addMemory, updateSubtask, logSubtask, setFirstMatch]

theorem errStateOf_subtasks (env : Env) (step attempt : Nat) (st : AgentState) :
    (errStateOf env step attempt st).subtasks
      = st.subtasks ++ [{ tool_name := solveSandboxName, status := failureTxt }] := by
  simp [errStateOf, addMemory, updateSubtask, logSubtask, setFirstMatch]

theorem plainStateOf_subtasks (env : Env) (step attempt : Nat) (st : AgentState) :
    (plainStateOf env step attempt st).subtasks
      = st.subtasks ++ [{ tool_name := solveSandboxName, status := successTxt }] := by
  simp [plainStateOf, addMemory, updateSubtask, logSubtask, setFirstMatch]

/- # Claim theorems: agent loop -/

/-- C1: when the stripped sandbox result starts with
`FURTHER_PROCESSING_REQUIRED:`, the attempt runs post-result heuristics over
the extracted payload, stores the framed result as `user_input_override`,
and breaks out of the lifeline loop with `lifelines_left` unchanged (the
forward consumes the step, not a lifeline); the override is what the next
step's input selection returns. -/
theorem claim_C1_forward_consumes_step (env : Env) (step attempt fuel : Nat) (st : AgentState)
    (htools : env.toolsNonempty
        (run_pre_query env.engine (pyOr st.user_input_override st.user_input) (env.sessionId, step)).1
        step attempt = true)
    (hplan : matchesSolve (planOf env step attempt st) = true)
    (hfwd : startsWithSeq furtherTag (sandboxRes env step attempt st) = true) :
    stepLoop env step st (fuel + 1) attempt
      = StepRes.next (forwardStateOf env step attempt st) (fuel : Int)
    ∧ (forwardStateOf env step attempt st).user_input_override
        = some (forwardFramed env step attempt st)
    ∧ pyOr (forwardStateOf env step attempt st).user_input_override
        (forwardStateOf env step attempt st).user_input
      = forwardFramed env step attempt st := by
  have hatt : runAttempt env step attempt st
      = AttemptOut.breakStep (forwardStateOf env step attempt st) :=
    (runAttempt_exec env step attempt st htools hplan).trans
      (execAttempt_further env step attempt st hfwd)
  refine ⟨?_, rfl, ?_⟩
  · simp [stepLoop, hatt]
  · simp [pyOr, forwardStateOf, forwardFramed, frameForward_isEmpty]

/-- C1 witness: a concrete forwarding run, entered with 2 lifelines left,
exits the step with 2 lifelines left, the override set and selected. -/
theorem claim_C1_witness :
    stepLoop envFwd 0 (initState envFwd) (2 + 1) 0
      = StepRes.next (forwardStateOf envFwd 0 0 (initState envFwd)) ((2 : Nat) : Int)
    ∧ (forwardStateOf envFwd 0 0 (initState envFwd)).user_input_override
        = some (forwardFramed envFwd 0 0 (initState envFwd))
    ∧ pyOr (forwardStateOf envFwd 0 0 (initState envFwd)).user_input_override
        (forwardStateOf envFwd 0 0 (initState envFwd)).user_input
      = forwardFramed envFwd 0 0 (initState envFwd) :=
  claim_C1_forward_consumes_step envFwd 0 0 2 (initState envFwd)
    (by decide) (by decide) (by decide)

/-- C2 counterexample: on a ForwardRequired result the attempt leaves the
audit record at status `pending` — it is never updated to `success` or
`failure`, contradicting the claim. -/
theorem claim_C2_counterexample :
    (stateOf (runAttempt envFwd 0 0 (initState envFwd))).subtasks
      = [{ tool_name := solveSandboxName, status := pendingTxt }]
    ∧ pendingTxt ≠ successTxt ∧ pendingTxt ≠ failureTxt := by
  refine ⟨by decide, by decide, by decide⟩

/-- C2 (amended): the `pending` audit record is updated to `success` in the
Final and Plain outcomes and to `failure` in the SandboxError outcome, but
in the ForwardRequired outcome the branch breaks before the update and the
record remains `pending`. -/
theorem claim_C2_subtask_status (env : Env) (step attempt : Nat) (st : AgentState)
    (htools : env.toolsNonempty
        (run_pre_query env.engine (pyOr st.user_input_override st.user_input) (env.sessionId, step)).1
        step attempt = true)
    (hplan : matchesSolve (planOf env step attempt st) = true) :
    (startsWithSeq finalTag (sandboxRes env step attempt st) = true →
      (stateOf (runAttempt env step attempt st)).subtasks.getLast?
        = some { tool_name := solveSandboxName, status := successTxt })
    ∧ (startsWithSeq furtherTag (sandboxRes env step attempt st) = true →
      (stateOf (runAttempt env step attempt st)).subtasks.getLast?
        = some { tool_name := solveSandboxName, status := pendingTxt })
    ∧ (startsWithSeq finalTag (sandboxRes env step attempt st) = false →
       startsWithSeq furtherTag (sandboxRes env step attempt st) = false →
       startsWithSeq sandboxErrTag (sandboxRes env step attempt st) = true →
      (stateOf (runAttempt env step attempt st)).subtasks.getLast?
        = some { tool_name := solveSandboxName, status := failureTxt })
    ∧ (startsWithSeq finalTag (sandboxRes env step attempt st) = false →
       startsWithSeq furtherTag (sandboxRes env step attempt st) = false →
       startsWithSeq sandboxErrTag (sandboxRes env step attempt st) = false →
      (stateOf (runAttempt env step attempt st)).subtasks.getLast?
        = some { tool_name := solveSandboxName, status := successTxt }) := by
  have hexec := runAttempt_exec env step attempt st htools hplan
  refine ⟨?_, ?_, ?_, ?_⟩
  · intro hfin
    rw [hexec, execAttempt_final env step attempt st hfin]
    simp [stateOf, finalStateOf_subtasks]
  · intro hfwd
    rw [hexec, execAttempt_further env step attempt st hfwd]
    simp [stateOf, forwardStateOf_subtasks]
  · intro hfin hfwd herr
    rw [hexec, execAttempt_sandbox_error env step attempt st hfin hfwd herr]
    simp [stateOf, errStateOf_subtasks]
  · intro hfin hfwd herr
    by_cases hcont : containsSeq furtherTag (sandboxRes env step attempt st) = true
    · rw [hexec, execAttempt_plain_retry env step attempt st hfin hfwd herr hcont]
      simp [stateOf, plainStateOf_subtasks]
    · simp only [Bool.not_eq_true] at hcont
      rw [hexec, execAttempt_plain_done env step attempt st hfin hfwd herr hcont]
      simp [stateOf, plainStateOf_subtasks]

/-- C2 witness: the amended theorem applied to a concrete ForwardRequired
run (record stays pending) and a concrete SandboxError run (record moves to
failure). -/
theorem claim_C2_witness :
    (stateOf (runAttempt envFwd 0 0 (initState envFwd))).subtasks.getLast?
      = some { tool_name := solveSandboxName, status := pendingTxt }
    ∧ (stateOf (runAttempt envErr 0 0 (initState envErr))).subtasks.getLast?
      = some { tool_name := solveSandboxName, status := failureTxt } :=
  ⟨(claim_C2_subtask_status envFwd 0 0 (initState envFwd) (by decide) (by decide)).2.1 (by decide),
   (claim_C2_subtask_status envErr 0 0 (initState envErr) (by decide) (by decide)).2.2.1
     (by decide) (by decide) (by decide)⟩

/-- C3 counterexample: the upper-case plan `DEF SOLVE(` matches the spec's
case-insensitive reading but not the code's case-sensitive regex, so the
loop classifies it invalid and retries instead of executing it. -/
theorem claim_C3_counterexample :
    matchesSolveCI (("DEF SOLVE(").toList) = true
    ∧ matchesSolve (("DEF SOLVE(").toList) = false
    ∧ planOf envCaps 0 0 (initState envCaps) = (("DEF SOLVE(").toList)
    ∧ runAttempt envCaps 0 0 (initState envCaps) = AttemptOut.retry (initState envCaps) := by
  refine ⟨by decide, by decide, by decide, by decide⟩

/-- C3 (amended): the plan is executable exactly when it matches the
case-SENSITIVE solve-signature regex (optional async qualifier); a
non-matching plan consumes one lifeline and is retried within the same step
with no execution, while a matching plan reaches execution (one audit
record is appended). -/
theorem claim_C3_plan_classification (env : Env) (step attempt fuel : Nat) (st : AgentState)
    (htools : env.toolsNonempty
        (run_pre_query env.engine (pyOr st.user_input_override st.user_input) (env.sessionId, step)).1
        step attempt = true) :
    (matchesSolve (planOf env step attempt st) = false →
      runAttempt env step attempt st = AttemptOut.retry st
      ∧ stepLoop env step st (fuel + 1) attempt = stepLoop env step st fuel (attempt + 1))
    ∧ (matchesSolve (planOf env step attempt st) = true →
      runAttempt env step attempt st = execAttempt env step attempt st (planOf env step attempt st)
      ∧ (stateOf (runAttempt env step attempt st)).subtasks.length
          = st.subtasks.length + 1) := by
  constructor
  · intro hplan
    have h := runAttempt_invalid env step attempt st htools hplan
    exact ⟨h, by simp [stepLoop, h]⟩
  · intro hplan
    have h := runAttempt_exec env step attempt st htools hplan
    refine ⟨h, ?_⟩
    rw [h]
    by_cases hfin : startsWithSeq finalTag (sandboxRes env step attempt st) = true
    · rw [execAttempt_final env step attempt st hfin]
      simp [stateOf, finalStateOf_subtasks]
    · simp only [Bool.not_eq_true] at hfin
      by_cases hfwd : startsWithSeq furtherTag (sandboxRes env step attempt st) = true
      · rw [execAttempt_further env step attempt st hfwd]
        simp [stateOf, forwardStateOf_subtasks]
      · simp only [Bool.not_eq_true] at hfwd
        by_cases herr : startsWithSeq sandboxErrTag (sandboxRes env step attempt st) = true
        · rw [execAttempt_sandbox_error env step attempt st hfin hfwd herr]
          simp [stateOf, errStateOf_subtasks]
        · simp only [Bool.not_eq_true] at herr
          by_cases hcont : containsSeq furtherTag (sandboxRes env step attempt st) = true
          · rw [execAttempt_plain_retry env step attempt st hfin hfwd herr hcont]
            simp [stateOf, plainStateOf_subtasks]
          · simp only [Bool.not_eq_true] at hcont
            rw [execAttempt_plain_done env step attempt st hfin hfwd herr hcont]
            simp [stateOf, plainStateOf_subtasks]

/-- C3 witness: the amended theorem applied to the upper-case plan. -/
theorem claim_C3_witness :
    runAttempt envCaps 0 0 (initState envCaps) = AttemptOut.retry (initState envCaps)
    ∧ stepLoop envCaps 0 (initState envCaps) (0 + 1) 0
        = stepLoop envCaps 0 (initState envCaps) 0 (0 + 1) :=
  (claim_C3_plan_classification envCaps 0 0 0 (initState envCaps) (by decide)).1 (by decide)

/-- C4 counterexample: a result with no recognised prefix that nevertheless
contains `FURTHER_PROCESSING_REQUIRED:` mid-string is NOT returned as a
final answer: the attempt retries (consuming a lifeline) instead of
returning done, contradicting the claim. -/
theorem claim_C4_counterexample :
    startsWithSeq finalTag (sandboxRes envPlainMarker 0 0 (initState envPlainMarker)) = false
    ∧ startsWithSeq furtherTag (sandboxRes envPlainMarker 0 0 (initState envPlainMarker)) = false
    ∧ startsWithSeq sandboxErrTag (sandboxRes envPlainMarker 0 0 (initState envPlainMarker)) = false
    ∧ isRetry (runAttempt envPlainMarker 0 0 (initState envPlainMarker)) = true
    ∧ isDone (runAttempt envPlainMarker 0 0 (initState envPlainMarker)) = false := by
  refine ⟨by decide, by decide, by decide, by decide, by decide⟩

/-- C4 (amended): a Plain result is recorded as `FINAL_ANSWER: ` ++ result
and returned as done immediately, without consuming a lifeline, only when
it also does not contain `FURTHER_PROCESSING_REQUIRED:` as a substring;
when it does, the attempt is still marked successful but a lifeline is
consumed and the step retries. -/
theorem claim_C4_plain_result (env : Env) (step attempt fuel : Nat) (st : AgentState)
    (htools : env.toolsNonempty
        (run_pre_query env.engine (pyOr st.user_input_override st.user_input) (env.sessionId, step)).1
        step attempt = true)
    (hplan : matchesSolve (planOf env step attempt st) = true)
    (hfin : startsWithSeq finalTag (sandboxRes env step attempt st) = false)
    (hfwd : startsWithSeq furtherTag (sandboxRes env step attempt st) = false)
    (herr : startsWithSeq sandboxErrTag (sandboxRes env step attempt st) = false) :
    (containsSeq furtherTag (sandboxRes env step attempt st) = false →
      stepLoop env step st (fuel + 1) attempt
        = StepRes.finished (finalSp ++ sandboxRes env step attempt st)
            (plainStateOf env step attempt st)
      ∧ (plainStateOf env step attempt st).final_answer
          = some (finalSp ++ sandboxRes env step attempt st))
    ∧ (containsSeq furtherTag (sandboxRes env step attempt st) = true →
      runAttempt env step attempt st = AttemptOut.retry (plainStateOf env step attempt st)
      ∧ stepLoop env step st (fuel + 1) attempt
          = stepLoop env step (plainStateOf env step attempt st) fuel (attempt + 1)) := by
  have hexec := runAttempt_exec env step attempt st htools hplan
  constructor
  · intro hcont
    have hatt : runAttempt env step attempt st
        = AttemptOut.done (finalSp ++ sandboxRes env step attempt st)
            (plainStateOf env step attempt st) :=
      hexec.trans (execAttempt_plain_done env step attempt st hfin hfwd herr hcont)
    refine ⟨by simp [stepLoop, hatt], ?_⟩
    simp [plainStateOf, addMemory, updateSubtask, logSubtask]
  · intro hcont
    have hatt : runAttempt env step attempt st
        = AttemptOut.retry (plainStateOf env step attempt st) :=
      hexec.trans (execAttempt_plain_retry env step attempt st hfin hfwd herr hcont)
    exact ⟨hatt, by simp [stepLoop, hatt]⟩

/-- C4 witness: a clean plain result is returned as done immediately with
the prefixed final answer. -/
theorem claim_C4_witness :
    stepLoop envPlainClean 0 (initState envPlainClean) (0 + 1) 0
      = StepRes.finished (finalSp ++ sandboxRes envPlainClean 0 0 (initState envPlainClean))
          (plainStateOf envPlainClean 0 0 (initState envPlainClean))
    ∧ (plainStateOf envPlainClean 0 0 (initState envPlainClean)).final_answer
        = some (finalSp ++ sandboxRes envPlainClean 0 0 (initState envPlainClean)) :=
  (claim_C4_plain_result envPlainClean 0 0 0 (initState envPlainClean)
    (by decide) (by decide) (by decide) (by decide) (by decide)).1 (by decide)

/-- C9 counterexample: with the planner degraded to the literal
`FINAL_ANSWER: [unknown]` (as `generate_plan` returns when the model call
raises), the run does NOT terminate with that literal: it exhausts all
steps and returns the max-steps literal. -/
theorem claim_C9_counterexample :
    (runLoop envUnknown).1 = maxStepsTxt
    ∧ (runLoop envUnknown).2.final_answer = some maxStepsTxt
    ∧ maxStepsTxt ≠ unknownTxt := by
  refine ⟨by decide, by decide, by decide⟩

/-- C9 (amended): when the planning model call raises, `generate_plan`
returns the literal `FINAL_ANSWER: [unknown]`; the loop then treats that
text as an invalid plan (it has no solve signature), so a run whose planner
keeps producing it never executes anything and terminates with the
max-steps literal, not with the unknown literal. -/
theorem claim_C9_planner_exception (e : Txt) :
    generate_plan (Except.error e) = unknownTxt
    ∧ ∀ (env : Env), (∀ (inp : Txt) (s a : Nat), env.planner inp s a = unknownTxt) →
        (runLoop env).1 = maxStepsTxt := by
  constructor
  · rfl
  · intro env hpl
    have hstep : ∀ (step fuel attempt : Nat) (st : AgentState),
        ∃ st2 L, stepLoop env step st fuel attempt = StepRes.next st2 L := by
      intro step fuel
      induction fuel with
      | zero => exact fun attempt st => ⟨st, -1, rfl⟩
      | succ f ih =>
        intro attempt st
        by_cases ht : env.toolsNonempty
            (run_pre_query env.engine (pyOr st.user_input_override st.user_input)
              (env.sessionId, step)).1 step attempt = true
        · have hplan : matchesSolve (planOf env step attempt st) = false := by
            rw [planOf, hpl]
            decide
          have h := runAttempt_invalid env step attempt st ht hplan
          obtain ⟨st2, L, h2⟩ := ih (attempt + 1) st
          exact ⟨st2, L, by simp [stepLoop, h, h2]⟩
        · simp only [Bool.not_eq_true] at ht
          have h := runAttempt_notools env step attempt st ht
          exact ⟨st, (f : Int), by simp [stepLoop, h]⟩
    have hloop : ∀ (n : Nat) (st : AgentState), (loopGo env n st).1 = maxStepsTxt := by
      intro n
      induction n with
      | zero => exact fun st => rfl
      | succ m ih =>
        intro st
        obtain ⟨st2, L, h⟩ := hstep (env.maxSteps - (m + 1)) (env.maxLifelines + 1) 0 st
        simp [loopGo, runStep, h, ih]
    exact hloop env.maxSteps (initState env)

/-- C9 witness: the amended theorem applied to a concrete raising model and
the concrete degraded environment. -/
theorem claim_C9_witness :
    generate_plan (Except.error (("model error").toList)) = unknownTxt
    ∧ (runLoop envUnknown).1 = maxStepsTxt :=
  ⟨(claim_C9_planner_exception (("model error").toList)).1,
   (claim_C9_planner_exception []).2 envUnknown (fun _ _ _ => rfl)⟩
